import Mathlib

/-!
Verification of the yt_caption_grab service (src/src/main.py).

The Python source is shallowly embedded: each relevant Python function is
translated into a computable Lean definition operating on `String` /
`List Char`, with Python exceptions modelled by `Except` over an explicit
exception type.  Line/character-level primitives (`str.strip`, `str.split`,
`re.sub`, substring tests) are modelled directly.  Recursions that consume
a varying number of characters per step are written with a fuel parameter
equal to the input length (each step consumes at least one character, so
the fuel never runs out on the actual argument); the fuel-exhausted base
case returns the input unchanged.
-/

namespace YtCap

/-- Whitespace characters removed by Python `str.strip()`. -/
def pyWS (c : Char) : Bool :=
  c = ' ' || c = '\t' || c = '\n' || c = '\r' || c = '\x0b' || c = '\x0c'

/-- Model of Python `str.strip()` on char lists. -/
def stripL (cs : List Char) : List Char :=
  ((cs.dropWhile pyWS).reverse.dropWhile pyWS).reverse

/-- Model of Python `str.strip()`. -/
def pyStrip (s : String) : String := ⟨stripL s.data⟩

/-- Model of Python `str.split('\n')`: split at every newline, keeping empty
pieces (so the result always has one more piece than there are newlines). -/
def splitNL : List Char → List (List Char)
  | [] => [[]]
  | c :: rest =>
    if c = '\n' then [] :: splitNL rest
    else
      match splitNL rest with
      | [] => [[c]]
      | l :: ls => (c :: l) :: ls

/-- Lines of a string, as Python `s.split('\n')`. -/
def splitLinesS (s : String) : List String := (splitNL s.data).map (fun l => ⟨l⟩)

/-- Model of Python `pat in s` (substring containment) on char lists. -/
def containsSub (pat : List Char) : List Char → Bool
  | [] => pat.isPrefixOf ([] : List Char)
  | cs@(_ :: rest) => pat.isPrefixOf cs || containsSub pat rest

/-- Model of Python `'\n'.join` / `' '.join`: interleave a separator between
the pieces. -/
def pyJoin (sep : String) : List String → String
  | [] => ""
  | [x] => x
  | x :: y :: xs => x ++ sep ++ pyJoin sep (y :: xs)

/-- Skip up to and including the first `'>'`; `none` when there is none.
Used to model the regex `<[^>]+>`: a greedy `[^>]+` bounded by `>` always
ends exactly at the next `'>'`. -/
def afterGt : List Char → Option (List Char)
  | [] => none
  | c :: rest => if c = '>' then some rest else afterGt rest

/-- Fuelled worker for `tagStrip`.  Scanning left to right, a `'<'` followed
(at distance at least one) by a `'>'` is removed together with everything in
between; a `'<'` with no such closer is kept and the scan resumes one
character later. -/
def tagStripF : Nat → List Char → List Char
  | 0, cs => cs
  | _, [] => []
  | fuel+1, c :: rest =>
    if c = '<' then
      match rest with
      | [] => [c]
      | d :: rest2 =>
        if d = '>' then c :: tagStripF fuel (d :: rest2)
        else
          match afterGt (d :: rest2) with
          | some rest3 => tagStripF fuel rest3
          | none => c :: tagStripF fuel (d :: rest2)
    else c :: tagStripF fuel rest

/-- Model of Python `re.sub(r'<[^>]+>', '', text)` (src/src/main.py line 242). -/
def tagStrip (cs : List Char) : List Char := tagStripF cs.length cs

/-- Fuelled worker for `replaceAll`. -/
def replaceAllF (pat rep : List Char) : Nat → List Char → List Char
  | 0, cs => cs
  | _, [] => []
  | fuel+1, c :: rest =>
    if pat ≠ [] ∧ pat.isPrefixOf (c :: rest) then
      rep ++ replaceAllF pat rep fuel ((c :: rest).drop pat.length)
    else c :: replaceAllF pat rep fuel rest

/-- Model of Python `re.sub(pat, rep, s)` for a plain literal pattern:
left-to-right, non-overlapping, the replacement text is not rescanned. -/
def replaceAll (pat rep cs : List Char) : List Char :=
  replaceAllF pat rep cs.length cs

/-- Per-line cleanup from `parse_vtt_content` / `convert_to_srt`
(src/src/main.py lines 242-245 and 282-285): strip `<...>` tags, then
unescape the entities `&amp;`, `&lt;`, `&gt;`, in that order. -/
def cleanL (cs : List Char) : List Char :=
  replaceAll "&gt;".data ">".data
    (replaceAll "&lt;".data "<".data
      (replaceAll "&amp;".data "&".data (tagStrip cs)))

/-- String-level per-line cleanup. -/
def clean_text (s : String) : String := ⟨cleanL s.data⟩

/-! ### Claim C2: idempotence of the per-line cleanup -/

theorem tagStripF_no_lt : ∀ (fuel : Nat) (cs : List Char),
    '<' ∉ cs → tagStripF fuel cs = cs := by
  intro fuel
  induction fuel with
  | zero => intro cs _; simp [tagStripF]
  | succ n ih =>
    intro cs h
    cases cs with
    | nil => rfl
    | cons c rest =>
      have hc : c ≠ '<' := fun hh => h (hh ▸ List.mem_cons_self c rest)
      have hr : '<' ∉ rest := fun hh => h (List.mem_cons_of_mem c hh)
      simp [tagStripF, hc, ih rest hr]

theorem replaceAllF_head_notMem : ∀ (p : Char) (ps rep : List Char) (fuel : Nat)
    (cs : List Char), p ∉ cs → replaceAllF (p :: ps) rep fuel cs = cs := by
  intro p ps rep fuel
  induction fuel with
  | zero => intro cs _; simp [replaceAllF]
  | succ n ih =>
    intro cs h
    cases cs with
    | nil => rfl
    | cons c rest =>
      have hc : p ≠ c := fun hh => h (hh ▸ List.mem_cons_self c rest)
      have hpre : (p :: ps).isPrefixOf (c :: rest) = false := by
        simp [List.isPrefixOf, hc]
      have hr : p ∉ rest := fun hh => h (List.mem_cons_of_mem c hh)
      simp [replaceAllF, hpre, ih rest hr]

/-- On a string containing no `'<'` and no `'&'`, the cleanup is the
identity: the tag regex needs a `'<'` and all three entity patterns start
with `'&'`. -/
theorem cleanL_id (cs : List Char) (hlt : '<' ∉ cs) (hamp : '&' ∉ cs) :
    cleanL cs = cs := by
  unfold cleanL replaceAll tagStrip
  rw [tagStripF_no_lt _ _ hlt]
  rw [replaceAllF_head_notMem '&' _ _ _ _ hamp]
  rw [replaceAllF_head_notMem '&' _ _ _ _ hamp]
  rw [replaceAllF_head_notMem '&' _ _ _ _ hamp]

/-- Claim C2, counterexample: the cleanup is not idempotent.  Cleaning
`"&amp;amp;"` once yields `"&amp;"` (the entity pass does not rescan its own
output), and cleaning that again yields `"&"`. -/
theorem claim_C2_counterexample :
    clean_text (clean_text "&amp;amp;") ≠ clean_text "&amp;amp;" := by decide

/-- Claim C2, amended: re-running the cleanup on already-cleaned text is a
no-op provided the cleaned text contains neither `'<'` nor `'&'`; in general
a second pass can strip tags or unescape entities that the first pass itself
produced. -/
theorem claim_C2_amended (s : String)
    (hlt : '<' ∉ (clean_text s).data) (hamp : '&' ∉ (clean_text s).data) :
    clean_text (clean_text s) = clean_text s := by
  unfold clean_text
  exact congrArg String.mk (cleanL_id _ hlt hamp)

/-- Claim C2, witness for the amended theorem at `"<i>Hello world</i>"`,
whose cleaned form `"Hello world"` contains neither `'<'` nor `'&'`. -/
theorem claim_C2_witness :
    '<' ∉ (clean_text "<i>Hello world</i>").data ∧
    '&' ∉ (clean_text "<i>Hello world</i>").data ∧
    clean_text (clean_text "<i>Hello world</i>") = clean_text "<i>Hello world</i>" :=
  ⟨by decide, by decide, claim_C2_amended "<i>Hello world</i>" (by decide) (by decide)⟩


/-! ### Claim C5: video identifier extraction (src/src/main.py lines 82-94) -/

def stopChar (c : Char) : Bool := c = '&' || c = '\n' || c = '?' || c = '#'

def grabId (cs : List Char) : List Char := cs.takeWhile (fun c => !stopChar c)

def tryAt (m cs : List Char) : Option (List Char) :=
  if m.isPrefixOf cs then
    let g := grabId (cs.drop m.length)
    if g.isEmpty then none else some g
  else none

def searchPat (m : List Char) : List Char → Option (List Char)
  | [] => none
  | c :: rest => (tryAt m (c :: rest)).orElse (fun _ => searchPat m rest)

def searchAlt (m1 m2 : List Char) : List Char → Option (List Char)
  | [] => none
  | c :: rest =>
    ((tryAt m1 (c :: rest)).orElse (fun _ => tryAt m2 (c :: rest))).orElse
      (fun _ => searchAlt m1 m2 rest)

def extract_video_id (url : String) : Except String String :=
  match searchAlt "youtube.com/watch?v=".data "youtu.be/".data url.data with
  | some v => .ok ⟨v⟩
  | none =>
    match searchPat "youtube.com/embed/".data url.data with
    | some v => .ok ⟨v⟩
    | none =>
      match searchPat "youtube.com/v/".data url.data with
      | some v => .ok ⟨v⟩
      | none => .error "Invalid YouTube URL"

theorem isPrefixOf_append_self : ∀ (m xs : List Char), m.isPrefixOf (m ++ xs) = true := by
  intro m xs
  induction m with
  | nil => simp [List.isPrefixOf]
  | cons c ms ih => simp [List.isPrefixOf, ih]

theorem tryAt_self (m xs : List Char) :
    tryAt m (m ++ xs) = if (grabId xs).isEmpty then none else some (grabId xs) := by
  unfold tryAt
  rw [if_pos (by simp [isPrefixOf_append_self])]
  simp [List.drop_left]

theorem takeWhile_append_sat (p : Char → Bool) :
    ∀ (xs ys : List Char), (∀ c ∈ xs, p c = true) →
      (xs ++ ys).takeWhile p = xs ++ ys.takeWhile p := by
  intro xs ys h
  induction xs with
  | nil => simp
  | cons c rest ih =>
    have hc : p c = true := h c (List.mem_cons_self c rest)
    simp [List.takeWhile, hc]
    exact ih (fun d hd => h d (List.mem_cons_of_mem c hd))

theorem grabId_exact (id tail : List Char) (hid : ∀ c ∈ id, stopChar c = false)
    (htail : tail = [] ∨ ∃ c rest, tail = c :: rest ∧ stopChar c = true) :
    grabId (id ++ tail) = id := by
  unfold grabId
  rw [takeWhile_append_sat _ id tail (by intro c hc; simp [hid c hc])]
  rcases htail with h | ⟨c, rest, h, hc⟩
  · simp [h]
  · subst h; simp [List.takeWhile, hc]

theorem searchPat_none (m : List Char) :
    ∀ cs, containsSub m cs = false → searchPat m cs = none := by
  intro cs
  induction cs with
  | nil => intro _; rfl
  | cons c rest ih =>
    intro h
    simp only [containsSub, Bool.or_eq_false_iff] at h
    have ht : tryAt m (c :: rest) = none := by
      unfold tryAt; rw [if_neg (by simp [h.1])]
    have step : searchPat m (c :: rest)
        = (tryAt m (c :: rest)).orElse (fun _ => searchPat m rest) := rfl
    rw [step, ht, ih h.2]; rfl

theorem searchAlt_none (m1 m2 : List Char) :
    ∀ cs, containsSub m1 cs = false → containsSub m2 cs = false →
      searchAlt m1 m2 cs = none := by
  intro cs
  induction cs with
  | nil => intro _ _; rfl
  | cons c rest ih =>
    intro h1 h2
    simp only [containsSub, Bool.or_eq_false_iff] at h1 h2
    have ht1 : tryAt m1 (c :: rest) = none := by
      unfold tryAt; rw [if_neg (by simp [h1.1])]
    have ht2 : tryAt m2 (c :: rest) = none := by
      unfold tryAt; rw [if_neg (by simp [h2.1])]
    have step : searchAlt m1 m2 (c :: rest)
        = ((tryAt m1 (c :: rest)).orElse (fun _ => tryAt m2 (c :: rest))).orElse
            (fun _ => searchAlt m1 m2 rest) := rfl
    rw [step, ht1, ht2, ih h1.2 h2.2]; rfl

theorem searchPat_marker (c : Char) (ms xs : List Char)
    (h : ¬ (grabId xs).isEmpty = true) :
    searchPat (c :: ms) ((c :: ms) ++ xs) = some (grabId xs) := by
  have ht := tryAt_self (c :: ms) xs
  rw [if_neg h] at ht
  have step : searchPat (c :: ms) ((c :: ms) ++ xs)
      = (tryAt (c :: ms) ((c :: ms) ++ xs)).orElse
          (fun _ => searchPat (c :: ms) (ms ++ xs)) := rfl
  rw [step, ht]; rfl

theorem searchAlt_marker1 (c : Char) (ms m2 xs : List Char)
    (h : ¬ (grabId xs).isEmpty = true) :
    searchAlt (c :: ms) m2 ((c :: ms) ++ xs) = some (grabId xs) := by
  have ht := tryAt_self (c :: ms) xs
  rw [if_neg h] at ht
  have step : searchAlt (c :: ms) m2 ((c :: ms) ++ xs)
      = ((tryAt (c :: ms) ((c :: ms) ++ xs)).orElse
          (fun _ => tryAt m2 ((c :: ms) ++ xs))).orElse
          (fun _ => searchAlt (c :: ms) m2 (ms ++ xs)) := rfl
  rw [step, ht]; rfl

theorem searchAlt_marker2 (m1 : List Char) (c : Char) (ms xs : List Char)
    (h : ¬ (grabId xs).isEmpty = true)
    (h1 : tryAt m1 ((c :: ms) ++ xs) = none) :
    searchAlt m1 (c :: ms) ((c :: ms) ++ xs) = some (grabId xs) := by
  have ht := tryAt_self (c :: ms) xs
  rw [if_neg h] at ht
  have step : searchAlt m1 (c :: ms) ((c :: ms) ++ xs)
      = ((tryAt m1 ((c :: ms) ++ xs)).orElse
          (fun _ => tryAt (c :: ms) ((c :: ms) ++ xs))).orElse
          (fun _ => searchAlt m1 (c :: ms) (ms ++ xs)) := rfl
  rw [step, h1, ht]; rfl

theorem extract_watch (id tl : List Char) (hne : id ≠ [])
    (hg : grabId (id ++ tl) = id) :
    extract_video_id ⟨"https://www.youtube.com/watch?v=".data ++ id ++ tl⟩ = .ok ⟨id⟩ := by
  have hne' : ¬ (grabId (id ++ tl)).isEmpty = true := by
    rw [hg]; simpa using hne
  have h2 := searchAlt_marker1 'y' "outube.com/watch?v=".data "youtu.be/".data (id ++ tl) hne'
  rw [hg] at h2
  have h1 : searchAlt "youtube.com/watch?v=".data "youtu.be/".data
      ("https://www.youtube.com/watch?v=".data ++ id ++ tl) = some id := h2
  unfold extract_video_id
  rw [show (⟨"https://www.youtube.com/watch?v=".data ++ id ++ tl⟩ : String).data
      = "https://www.youtube.com/watch?v=".data ++ id ++ tl from rfl, h1]

theorem extract_short (id tl : List Char) (hne : id ≠ [])
    (hg : grabId (id ++ tl) = id) :
    extract_video_id ⟨"https://youtu.be/".data ++ id ++ tl⟩ = .ok ⟨id⟩ := by
  have hne' : ¬ (grabId (id ++ tl)).isEmpty = true := by
    rw [hg]; simpa using hne
  have htry : tryAt "youtube.com/watch?v=".data (('y' :: "outu.be/".data) ++ (id ++ tl)) = none := rfl
  have h2 := searchAlt_marker2 "youtube.com/watch?v=".data 'y' "outu.be/".data (id ++ tl) hne' htry
  rw [hg] at h2
  have h1 : searchAlt "youtube.com/watch?v=".data "youtu.be/".data
      ("https://youtu.be/".data ++ id ++ tl) = some id := h2
  unfold extract_video_id
  rw [show (⟨"https://youtu.be/".data ++ id ++ tl⟩ : String).data
      = "https://youtu.be/".data ++ id ++ tl from rfl, h1]

theorem extract_embed (id tl : List Char) (hne : id ≠ [])
    (hg : grabId (id ++ tl) = id)
    (hm1 : containsSub "youtube.com/watch?v=".data (id ++ tl) = false)
    (hm2 : containsSub "youtu.be/".data (id ++ tl) = false) :
    extract_video_id ⟨"https://www.youtube.com/embed/".data ++ id ++ tl⟩ = .ok ⟨id⟩ := by
  have hne' : ¬ (grabId (id ++ tl)).isEmpty = true := by
    rw [hg]; simpa using hne
  have hc1 : containsSub "youtube.com/watch?v=".data
      ("https://www.youtube.com/embed/".data ++ id ++ tl) = false := hm1
  have hc2 : containsSub "youtu.be/".data
      ("https://www.youtube.com/embed/".data ++ id ++ tl) = false := hm2
  have h1 : searchAlt "youtube.com/watch?v=".data "youtu.be/".data
      ("https://www.youtube.com/embed/".data ++ id ++ tl) = none :=
    searchAlt_none _ _ _ hc1 hc2
  have h2' := searchPat_marker 'y' "outube.com/embed/".data (id ++ tl) hne'
  rw [hg] at h2'
  have h2 : searchPat "youtube.com/embed/".data
      ("https://www.youtube.com/embed/".data ++ id ++ tl) = some id := h2'
  unfold extract_video_id
  rw [show (⟨"https://www.youtube.com/embed/".data ++ id ++ tl⟩ : String).data
      = "https://www.youtube.com/embed/".data ++ id ++ tl from rfl, h1, h2]

theorem extract_vpath (id tl : List Char) (hne : id ≠ [])
    (hg : grabId (id ++ tl) = id)
    (hm1 : containsSub "youtube.com/watch?v=".data (id ++ tl) = false)
    (hm2 : containsSub "youtu.be/".data (id ++ tl) = false)
    (hm3 : containsSub "youtube.com/embed/".data (id ++ tl) = false) :
    extract_video_id ⟨"https://www.youtube.com/v/".data ++ id ++ tl⟩ = .ok ⟨id⟩ := by
  have hne' : ¬ (grabId (id ++ tl)).isEmpty = true := by
    rw [hg]; simpa using hne
  have hc1 : containsSub "youtube.com/watch?v=".data
      ("https://www.youtube.com/v/".data ++ id ++ tl) = false := hm1
  have hc2 : containsSub "youtu.be/".data
      ("https://www.youtube.com/v/".data ++ id ++ tl) = false := hm2
  have hc3 : containsSub "youtube.com/embed/".data
      ("https://www.youtube.com/v/".data ++ id ++ tl) = false := hm3
  have h1 : searchAlt "youtube.com/watch?v=".data "youtu.be/".data
      ("https://www.youtube.com/v/".data ++ id ++ tl) = none :=
    searchAlt_none _ _ _ hc1 hc2
  have h2 : searchPat "youtube.com/embed/".data
      ("https://www.youtube.com/v/".data ++ id ++ tl) = none :=
    searchPat_none _ _ hc3
  have h3' := searchPat_marker 'y' "outube.com/v/".data (id ++ tl) hne'
  rw [hg] at h3'
  have h3 : searchPat "youtube.com/v/".data
      ("https://www.youtube.com/v/".data ++ id ++ tl) = some id := h3'
  unfold extract_video_id
  rw [show (⟨"https://www.youtube.com/v/".data ++ id ++ tl⟩ : String).data
      = "https://www.youtube.com/v/".data ++ id ++ tl from rfl, h1, h2, h3]

theorem claim_C5 (idS tailS : String) (hne : idS.data ≠ [])
    (hid : ∀ c ∈ idS.data, stopChar c = false)
    (htail : tailS.data = [] ∨ ∃ c rest, tailS.data = c :: rest ∧ stopChar c = true)
    (hm1 : containsSub "youtube.com/watch?v=".data (idS.data ++ tailS.data) = false)
    (hm2 : containsSub "youtu.be/".data (idS.data ++ tailS.data) = false)
    (hm3 : containsSub "youtube.com/embed/".data (idS.data ++ tailS.data) = false) :
    extract_video_id ("https://www.youtube.com/watch?v=" ++ idS ++ tailS) = .ok idS ∧
    extract_video_id ("https://youtu.be/" ++ idS ++ tailS) = .ok idS ∧
    extract_video_id ("https://www.youtube.com/embed/" ++ idS ++ tailS) = .ok idS ∧
    extract_video_id ("https://www.youtube.com/v/" ++ idS ++ tailS) = .ok idS ∧
    extract_video_id "" = .error "Invalid YouTube URL" ∧
    extract_video_id "https://example.com/not-youtube" = .error "Invalid YouTube URL" := by
  have hg : grabId (idS.data ++ tailS.data) = idS.data := grabId_exact _ _ hid htail
  have hcoe : ∀ pre : String, pre ++ idS ++ tailS = ⟨pre.data ++ idS.data ++ tailS.data⟩ := by
    intro pre
    apply String.ext
    simp [String.data_append]
  have hok : (Except.ok (⟨idS.data⟩ : String) : Except String String) = .ok idS := rfl
  refine ⟨?_, ?_, ?_, ?_, rfl, rfl⟩
  · rw [hcoe, ← hok]; exact extract_watch _ _ hne hg
  · rw [hcoe, ← hok]; exact extract_short _ _ hne hg
  · rw [hcoe, ← hok]; exact extract_embed _ _ hne hg hm1 hm2
  · rw [hcoe, ← hok]; exact extract_vpath _ _ hne hg hm1 hm2 hm3

theorem claim_C5_witness :
    ("dQw4w9WgXcQ" : String).data ≠ [] ∧
    extract_video_id ("https://www.youtube.com/watch?v=" ++ "dQw4w9WgXcQ" ++ "&t=10s&list=PLtest")
      = .ok "dQw4w9WgXcQ" :=
  ⟨by decide,
   (claim_C5 "dQw4w9WgXcQ" "&t=10s&list=PLtest" (by decide) (by decide)
     (Or.inr ⟨'&', "t=10s&list=PLtest".data, by decide, by decide⟩)
     (by decide) (by decide) (by decide)).1⟩

/-! ### Cue parser and transcoders (src/src/main.py lines 221-303)

Claims C7, C1 and C10.  `parseTextF` embeds the line loop of
`parse_vtt_content`, `srtLoopF` the loop of `convert_to_srt`; both share
`collectText`, the inner text-collecting loop.  `parseCuesF` is the common
cue-structured view of the same loop, used to state the claims;
`srtRenderA` renders cues the way the code actually does, `srtRenderClaim`
renders them the way claim C1 describes.  Fuel is the number of lines. -/

def pyStartsWith (s pre : String) : Bool := pre.data.isPrefixOf s.data

def hasArrow (s : String) : Bool := containsSub "-->".data s.data

def headerLike (s : String) : Bool :=
  pyStartsWith s "WEBVTT" || pyStartsWith s "Kind:" || pyStartsWith s "Language:"

def collectText : List String → List String × List String
  | [] => ([], [])
  | l :: rest =>
    if pyStrip l ≠ "" ∧ hasArrow l = false then
      (if clean_text (pyStrip l) ≠ "" then
        clean_text (pyStrip l) :: (collectText rest).1
       else (collectText rest).1,
       (collectText rest).2)
    else ([], l :: rest)

def parseTextF : Nat → List String → List String
  | 0, _ => []
  | _, [] => []
  | fuel+1, l :: rest =>
    if headerLike (pyStrip l) then parseTextF fuel rest
    else if hasArrow (pyStrip l) then
      (collectText rest).1 ++ parseTextF fuel (collectText rest).2
    else parseTextF fuel rest

def parse_vtt_content (s : String) : String :=
  pyJoin " " (parseTextF (splitLinesS s).length (splitLinesS s))

def dotComma (s : String) : String := ⟨s.data.map (fun c => if c = '.' then ',' else c)⟩

def srtLoopF : Nat → List String → Nat → List String
  | 0, _, _ => []
  | _, [], _ => []
  | fuel+1, l :: rest, count =>
    if headerLike (pyStrip l) then srtLoopF fuel rest count
    else if hasArrow (pyStrip l) then
      if (collectText rest).1 ≠ [] then
        toString count :: dotComma (pyStrip l) ::
          ((collectText rest).1 ++ [""] ++ srtLoopF fuel (collectText rest).2 (count+1))
      else
        toString count :: dotComma (pyStrip l) :: srtLoopF fuel (collectText rest).2 count
    else srtLoopF fuel rest count

def convert_to_srt (s : String) : String :=
  pyJoin "\n" (srtLoopF (splitLinesS s).length (splitLinesS s) 1)

def parseCuesF : Nat → List String → List (String × List String)
  | 0, _ => []
  | _, [] => []
  | fuel+1, l :: rest =>
    if headerLike (pyStrip l) then parseCuesF fuel rest
    else if hasArrow (pyStrip l) then
      (pyStrip l, (collectText rest).1) :: parseCuesF fuel (collectText rest).2
    else parseCuesF fuel rest

def parseCues (s : String) : List (String × List String) :=
  parseCuesF (splitLinesS s).length (splitLinesS s)

def srtRenderA : List (String × List String) → Nat → List String
  | [], _ => []
  | (ts, texts) :: cues, n =>
    if texts ≠ [] then
      toString n :: dotComma ts :: (texts ++ [""] ++ srtRenderA cues (n+1))
    else toString n :: dotComma ts :: srtRenderA cues n

def srtRenderClaim : List (String × List String) → Nat → List String
  | [], _ => []
  | (ts, texts) :: cues, n =>
    if texts ≠ [] then
      toString n :: dotComma ts :: (texts ++ [""] ++ srtRenderClaim cues (n+1))
    else srtRenderClaim cues n

def survNumbers : List (String × List String) → Nat → List Nat
  | [], _ => []
  | (_, texts) :: cues, n =>
    if texts ≠ [] then n :: survNumbers cues (n+1) else survNumbers cues n

/-! equivalence theorems -/

theorem parseTextF_eq_cues : ∀ (fuel : Nat) (ls : List String),
    parseTextF fuel ls = (parseCuesF fuel ls).flatMap Prod.snd := by
  intro fuel
  induction fuel with
  | zero => intro ls; simp [parseTextF, parseCuesF]
  | succ n ih =>
    intro ls
    cases ls with
    | nil => simp [parseTextF, parseCuesF]
    | cons l rest =>
      by_cases h1 : headerLike (pyStrip l) = true
      · simp [parseTextF, parseCuesF, h1, ih]
      · by_cases h2 : hasArrow (pyStrip l) = true
        · simp [parseTextF, parseCuesF, h1, h2, ih]
        · simp [parseTextF, parseCuesF, h1, h2, ih]

theorem srtLoopF_eq_render : ∀ (fuel : Nat) (ls : List String) (n : Nat),
    srtLoopF fuel ls n = srtRenderA (parseCuesF fuel ls) n := by
  intro fuel
  induction fuel with
  | zero => intro ls n; simp [srtLoopF, parseCuesF, srtRenderA]
  | succ k ih =>
    intro ls n
    cases ls with
    | nil => simp [srtLoopF, parseCuesF, srtRenderA]
    | cons l rest =>
      by_cases h1 : headerLike (pyStrip l) = true
      · simp [srtLoopF, parseCuesF, h1, ih]
      · by_cases h2 : hasArrow (pyStrip l) = true
        · by_cases h3 : (collectText rest).1 = []
          · simp [srtLoopF, parseCuesF, srtRenderA, h1, h2, h3, ih]
          · simp [srtLoopF, parseCuesF, srtRenderA, h1, h2, h3, ih]
        · simp [srtLoopF, parseCuesF, h1, h2, ih]

theorem survNumbers_range : ∀ (cues : List (String × List String)) (n : Nat),
    survNumbers cues n
      = List.range' n (cues.filter (fun c => !c.2.isEmpty)).length := by
  intro cues
  induction cues with
  | nil => intro n; simp [survNumbers]
  | cons c cues ih =>
    intro n
    obtain ⟨ts, texts⟩ := c
    cases texts with
    | nil => simp [survNumbers, ih]
    | cons t ts2 => simp [survNumbers, ih, List.range'_succ, List.filter_cons]

/-! character preservation lemmas -/

theorem splitNL_no_newline : ∀ (cs l : List Char), l ∈ splitNL cs → '\n' ∉ l := by
  intro cs
  induction cs with
  | nil =>
    intro l hl
    simp [splitNL] at hl
    subst hl; simp
  | cons c rest ih =>
    intro l hl
    by_cases hc : c = '\n'
    · simp [splitNL, hc] at hl
      rcases hl with h | h
      · subst h; simp
      · exact ih l h
    · simp only [splitNL, if_neg hc] at hl
      cases hsp : splitNL rest with
      | nil =>
        rw [hsp] at hl
        simp at hl
        subst hl
        simp only [List.mem_singleton]
        exact fun h => hc h.symm
      | cons m ms =>
        rw [hsp] at hl
        simp at hl
        rcases hl with h | h
        · subst h
          intro hmem
          rcases List.mem_cons.mp hmem with h | h
          · exact hc h.symm
          · exact ih m (hsp ▸ List.mem_cons_self m ms) h
        · exact ih l (hsp ▸ List.mem_cons_of_mem m h)

theorem mem_stripL (cs : List Char) (c : Char) (h : c ∈ stripL cs) : c ∈ cs := by
  unfold stripL at h
  rw [List.mem_reverse] at h
  have h2 : c ∈ (cs.dropWhile pyWS).reverse := (List.dropWhile_sublist _).subset h
  rw [List.mem_reverse] at h2
  exact (List.dropWhile_sublist _).subset h2

theorem afterGt_subset : ∀ (cs rest : List Char), afterGt cs = some rest →
    ∀ c, c ∈ rest → c ∈ cs := by
  intro cs
  induction cs with
  | nil => intro rest h; simp [afterGt] at h
  | cons c cs ih =>
    intro rest h d hd
    simp only [afterGt] at h
    by_cases hc : c = '>'
    · simp [hc] at h; subst h; exact List.mem_cons_of_mem _ hd
    · simp [hc] at h
      exact List.mem_cons_of_mem _ (ih rest h d hd)

theorem mem_tagStripF : ∀ (fuel : Nat) (cs : List Char) (c : Char),
    c ∈ tagStripF fuel cs → c ∈ cs := by
  intro fuel
  induction fuel with
  | zero => intro cs c h; simpa [tagStripF] using h
  | succ n ih =>
    intro cs c h
    cases cs with
    | nil => simp [tagStripF] at h
    | cons d rest =>
      by_cases hd : d = '<'
      · cases rest with
        | nil =>
          simp [tagStripF, hd] at h
          simp [h, hd]
        | cons e rest2 =>
          by_cases he : e = '>'
          · simp only [tagStripF, if_pos hd, if_pos he] at h
            rcases List.mem_cons.mp h with h | h
            · simp [h, hd]
            · exact List.mem_cons_of_mem _ (ih _ _ h)
          · simp only [tagStripF, if_pos hd, if_neg he] at h
            cases hgt : afterGt (e :: rest2) with
            | some rest3 =>
              rw [hgt] at h
              exact List.mem_cons_of_mem _ (afterGt_subset _ _ hgt c (ih _ _ h))
            | none =>
              rw [hgt] at h
              rcases List.mem_cons.mp h with h | h
              · simp [h, hd]
              · exact List.mem_cons_of_mem _ (ih _ _ h)
      · simp only [tagStripF, if_neg hd] at h
        rcases List.mem_cons.mp h with h | h
        · simp [h]
        · exact List.mem_cons_of_mem _ (ih _ _ h)

theorem mem_replaceAllF : ∀ (pat rep : List Char) (fuel : Nat) (cs : List Char)
    (c : Char), c ∈ replaceAllF pat rep fuel cs → c ∈ rep ∨ c ∈ cs := by
  intro pat rep fuel
  induction fuel with
  | zero => intro cs c h; simp [replaceAllF] at h; exact Or.inr h
  | succ n ih =>
    intro cs c h
    cases cs with
    | nil => simp [replaceAllF] at h
    | cons d rest =>
      by_cases hp : pat ≠ [] ∧ pat.isPrefixOf (d :: rest)
      · simp only [replaceAllF, if_pos hp] at h
        rcases List.mem_append.mp h with h | h
        · exact Or.inl h
        · rcases ih _ _ h with h | h
          · exact Or.inl h
          · exact Or.inr (List.drop_subset _ _ h)
      · simp only [replaceAllF, if_neg hp] at h
        rcases List.mem_cons.mp h with h | h
        · exact Or.inr (by simp [h])
        · rcases ih _ _ h with h | h
          · exact Or.inl h
          · exact Or.inr (List.mem_cons_of_mem _ h)

theorem mem_cleanL (cs : List Char) (c : Char) (h : c ∈ cleanL cs) :
    c ∈ cs ∨ c = '&' ∨ c = '<' ∨ c = '>' := by
  unfold cleanL replaceAll tagStrip at h
  have e1 : ("&".data : List Char) = ['&'] := rfl
  have e2 : ("<".data : List Char) = ['<'] := rfl
  have e3 : (">".data : List Char) = ['>'] := rfl
  rcases mem_replaceAllF _ _ _ _ _ h with h | h
  · rw [e3] at h; simp at h; exact Or.inr (Or.inr (Or.inr h))
  rcases mem_replaceAllF _ _ _ _ _ h with h | h
  · rw [e2] at h; simp at h; exact Or.inr (Or.inr (Or.inl h))
  rcases mem_replaceAllF _ _ _ _ _ h with h | h
  · rw [e1] at h; simp at h; exact Or.inr (Or.inl h)
  · exact Or.inl (mem_tagStripF _ _ _ h)

theorem clean_no_newline (s : String) (h : '\n' ∉ s.data) :
    '\n' ∉ (clean_text (pyStrip s)).data := by
  intro hmem
  rcases mem_cleanL _ _ hmem with hh | hh | hh | hh
  · exact h (mem_stripL _ _ hh)
  all_goals simp at hh

/-! membership structure of the parse loop -/

theorem collectText_fst_mem : ∀ (ls : List String) (t : String),
    t ∈ (collectText ls).1 → ∃ l ∈ ls, t = clean_text (pyStrip l) := by
  intro ls
  induction ls with
  | nil => intro t h; simp [collectText] at h
  | cons l rest ih =>
    intro t h
    by_cases hc : pyStrip l ≠ "" ∧ hasArrow l = false
    · simp only [collectText, if_pos hc] at h
      by_cases ht : clean_text (pyStrip l) ≠ ""
      · rw [if_pos ht] at h
        rcases List.mem_cons.mp h with h | h
        · exact ⟨l, List.mem_cons_self l rest, h⟩
        · obtain ⟨m, hm, he⟩ := ih t h
          exact ⟨m, List.mem_cons_of_mem l hm, he⟩
      · rw [if_neg ht] at h
        obtain ⟨m, hm, he⟩ := ih t h
        exact ⟨m, List.mem_cons_of_mem l hm, he⟩
    · simp only [collectText, if_neg hc] at h
      simp at h

theorem collectText_snd_mem : ∀ (ls : List String) (l : String),
    l ∈ (collectText ls).2 → l ∈ ls := by
  intro ls
  induction ls with
  | nil => intro l h; simp [collectText] at h
  | cons m rest ih =>
    intro l h
    by_cases hc : pyStrip m ≠ "" ∧ hasArrow m = false
    · simp only [collectText, if_pos hc] at h
      exact List.mem_cons_of_mem m (ih l h)
    · simp only [collectText, if_neg hc] at h
      exact h

theorem parseTextF_mem : ∀ (fuel : Nat) (ls : List String) (t : String),
    t ∈ parseTextF fuel ls → ∃ l ∈ ls, t = clean_text (pyStrip l) := by
  intro fuel
  induction fuel with
  | zero => intro ls t h; simp [parseTextF] at h
  | succ n ih =>
    intro ls t h
    cases ls with
    | nil => simp [parseTextF] at h
    | cons l rest =>
      by_cases h1 : headerLike (pyStrip l) = true
      · simp only [parseTextF, if_pos h1] at h
        obtain ⟨m, hm, he⟩ := ih rest t h
        exact ⟨m, List.mem_cons_of_mem l hm, he⟩
      · by_cases h2 : hasArrow (pyStrip l) = true
        · simp only [parseTextF, if_neg h1, if_pos h2] at h
          rcases List.mem_append.mp h with h | h
          · obtain ⟨m, hm, he⟩ := collectText_fst_mem rest t h
            exact ⟨m, List.mem_cons_of_mem l hm, he⟩
          · obtain ⟨m, hm, he⟩ := ih _ t h
            exact ⟨m, List.mem_cons_of_mem l (collectText_snd_mem rest m hm), he⟩
        · simp only [parseTextF, if_neg h1, if_neg h2] at h
          obtain ⟨m, hm, he⟩ := ih rest t h
          exact ⟨m, List.mem_cons_of_mem l hm, he⟩

theorem pyJoin_no_newline (sep : String) (hsep : '\n' ∉ sep.data) :
    ∀ (parts : List String), (∀ p ∈ parts, '\n' ∉ p.data) →
      '\n' ∉ (pyJoin sep parts).data := by
  intro parts
  induction parts with
  | nil => intro _; simp [pyJoin]
  | cons x xs ih =>
    intro h
    cases xs with
    | nil => simpa [pyJoin] using h x (List.mem_cons_self x [])
    | cons y ys =>
      have hx := h x (List.mem_cons_self x (y :: ys))
      have hrest : ∀ p ∈ y :: ys, '\n' ∉ p.data :=
        fun p hp => h p (List.mem_cons_of_mem x hp)
      simp only [pyJoin, String.data_append, List.mem_append]
      push_neg
      exact ⟨⟨hx, hsep⟩, ih hrest⟩

/-- Claim C7: plain-text rendering concatenates every surviving cleaned
text line across all cues, in document order, joined by exactly one space,
with no timestamps, cue boundaries or numbering; and on the markup
`WEBVTT\n\n00:00:00.000 --> 00:00:02.000\nHello &amp; welcome\n\n` the
output is exactly `Hello & welcome`. -/
theorem claim_C7 (vtt : String) :
    parse_vtt_content vtt = pyJoin " " ((parseCues vtt).flatMap Prod.snd) ∧
    parse_vtt_content "WEBVTT\n\n00:00:00.000 --> 00:00:02.000\nHello &amp; welcome\n\n"
      = "Hello & welcome" := by
  constructor
  · unfold parse_vtt_content parseCues
    rw [parseTextF_eq_cues]
  · decide

/-- Claim C1, counterexample: a cue whose text lines are all dropped in
cleanup does not emit nothing — `convert_to_srt` appends the cue number and
timestamp line before collecting the text, so the dropped first cue leaves
an orphan `1` and timestamp line in the output (the counter, however, does
not advance: the surviving cue is also numbered `1`). -/
theorem claim_C1_counterexample :
    convert_to_srt
        "WEBVTT\n\n00:00:00.000 --> 00:00:01.000\n<i></i>\n\n00:00:01.000 --> 00:00:02.000\nHi\n"
      ≠ pyJoin "\n"
          (srtRenderClaim
            (parseCues
              "WEBVTT\n\n00:00:00.000 --> 00:00:01.000\n<i></i>\n\n00:00:01.000 --> 00:00:02.000\nHi\n")
            1) ∧
    convert_to_srt
        "WEBVTT\n\n00:00:00.000 --> 00:00:01.000\n<i></i>\n\n00:00:01.000 --> 00:00:02.000\nHi\n"
      = "1\n00:00:00,000 --> 00:00:01,000\n1\n00:00:01,000 --> 00:00:02,000\nHi\n" := by
  constructor
  · decide
  · decide

/-- Claim C1, amended: surviving cues are numbered 1-based, strictly
increasing by 1 with no gaps, counting only cues with at least one
surviving text line (`survNumbers = range 1 k`); but a cue whose text
lines are all dropped still emits its number line (the current counter
value, duplicating the next surviving cue's number) and its timestamp line
with `.` replaced by `,`, followed by no text lines and no blank line. -/
theorem claim_C1_amended (vtt : String) :
    convert_to_srt vtt = pyJoin "\n" (srtRenderA (parseCues vtt) 1) ∧
    survNumbers (parseCues vtt) 1
      = List.range' 1 ((parseCues vtt).filter (fun c => !c.2.isEmpty)).length := by
  constructor
  · unfold convert_to_srt parseCues
    rw [srtLoopF_eq_render]
  · exact survNumbers_range _ 1

/-- Claim C10, counterexample: the plain-text transcript can carry leading
(or trailing) whitespace: stripping happens before tag removal, so the line
`<i> hi` cleans to ` hi` and the whole transcript starts with a space. -/
theorem claim_C10_counterexample :
    parse_vtt_content "WEBVTT\n\n00:00:00.000 --> 00:00:01.000\n<i> hi\n" = " hi" ∧
    (parse_vtt_content "WEBVTT\n\n00:00:00.000 --> 00:00:01.000\n<i> hi\n").data.head?
      = some ' ' := by
  constructor
  · decide
  · decide

/-- Claim C10, amended: the plain-text rendering is a single line — it
never contains a newline character (lines come from splitting on newlines,
cleanup never introduces one, and the separator is a space); leading or
trailing whitespace, however, can survive when tag stripping exposes spaces
at a line edge. -/
theorem claim_C10_amended (vtt : String) :
    '\n' ∉ (parse_vtt_content vtt).data := by
  unfold parse_vtt_content
  apply pyJoin_no_newline " " (by decide)
  intro p hp
  obtain ⟨l, hl, he⟩ := parseTextF_mem _ _ p hp
  subst he
  apply clean_no_newline
  unfold splitLinesS at hl
  obtain ⟨lc, hlc, he⟩ := List.mem_map.mp hl
  rw [← he]
  exact splitNL_no_newline _ _ hlc

/-! ### Exceptions and the retry policy (src/src/main.py lines 96-109)

Python exceptions are modelled by `PyExc`; fallible calls return `Except`.
The external yt-dlp calls are modelled as attempt-indexed environments. -/

inductive PyExc where
  | httpExc (status : Nat) (detail : String)
  | downloadErr (msg : String)
  | brokenPipe (msg : String)
  | connErr (msg : String)
  | valueErr (msg : String)
  | otherExc (msg : String)
deriving DecidableEq, Repr

/-- Python `str(e)`; for fastapi's `HTTPException`, `str` is
`"<status>: <detail>"`. -/
def strOfExc : PyExc → String
  | .httpExc s d => toString s ++ ": " ++ d
  | .downloadErr m => m
  | .brokenPipe m => m
  | .connErr m => m
  | .valueErr m => m
  | .otherExc m => m

/-- Membership in the tuple of `except (BrokenPipeError, ConnectionError,
yt_dlp.DownloadError)` at line 101. -/
def inRetryTuple : PyExc → Bool
  | .brokenPipe _ => true
  | .connErr _ => true
  | .downloadErr _ => true
  | _ => false

/-- Loop of `retry_yt_dlp_operation`, recursing on the number of remaining
iterations (`remaining = max_retries - attempt`, so the Python guard
`attempt == max_retries - 1` is `remaining = 1`, i.e. the inner counter
hits 0).  Returns the result together with the list of performed sleep
durations; `none` models Python returning `None` when the `for` body never
runs (`max_retries = 0`). -/
def retryGo (op : Nat → Except PyExc α) :
    Nat → Nat → Nat → List Nat → Option (Except PyExc α × List Nat)
  | 0, _, _, _ => none
  | remaining+1, attempt, delay, sleeps =>
    match op attempt with
    | .ok a => some (.ok a, sleeps.reverse)
    | .error e =>
      if inRetryTuple e then
        if remaining = 0 then some (.error e, sleeps.reverse)
        else retryGo op remaining (attempt+1) (delay*2) (delay :: sleeps)
      else some (.error e, sleeps.reverse)

/-- Model of `retry_yt_dlp_operation(operation_func, max_retries, delay)`. -/
def retry_yt_dlp_operation (op : Nat → Except PyExc α) (maxRetries delay : Nat) :
    Option (Except PyExc α × List Nat) :=
  retryGo op maxRetries 0 delay []

def opC3succ : Nat → Except PyExc Unit := fun _ => .ok ()

def opC3other : Nat → Except PyExc Unit := fun _ => .error (.otherExc "boom")

def opC3net : Nat → Except PyExc Unit := fun i =>
  if i = 0 then .error (.brokenPipe "reset")
  else if i = 1 then .error (.connErr "pipe")
  else .error (.downloadErr "dl")

/-- Claim C3, counterexample: a `yt_dlp.DownloadError` — the
`VideoUnavailable` category, mapped to 404 by every caller — is in the
retried tuple, so an operation that keeps failing with it is attempted
three times with sleeps of 1 and 2 time units instead of propagating
immediately with no retry. -/
theorem claim_C3_counterexample :
    retry_yt_dlp_operation
        (fun _ => (.error (.downloadErr "HTTP Error 404") : Except PyExc Unit)) 3 1
      = some (.error (.downloadErr "HTTP Error 404"), [1, 2]) ∧
    (retry_yt_dlp_operation
        (fun _ => (.error (.downloadErr "HTTP Error 404") : Except PyExc Unit)) 3 1).map
        (fun p => p.2) ≠ some [] := by
  refine ⟨rfl, ?_⟩
  intro h
  simp [retry_yt_dlp_operation, retryGo, inRetryTuple] at h

/-- Claim C3, amended: the wrapper retries failures whose exception is in
the tuple `(BrokenPipeError, ConnectionError, yt_dlp.DownloadError)` — that
is, the `TransientNetwork` category and also the `DownloadError` /
`VideoUnavailable` category — up to 3 attempts by default with delays of 1
time unit doubling after each failed attempt; every other failure
(`Unexpected`, `HTTPException`, `ValueError`) propagates immediately with
no retry, a first-attempt success is returned with no sleeps, and
exhausting the attempt budget re-raises the last failure unchanged. -/
theorem claim_C3_amended (α : Type) (op : Nat → Except PyExc α) (a : α)
    (e e0 e1 e2 : PyExc) :
    ((∀ m, inRetryTuple (.brokenPipe m) = true ∧ inRetryTuple (.connErr m) = true ∧
        inRetryTuple (.downloadErr m) = true ∧ inRetryTuple (.valueErr m) = false ∧
        inRetryTuple (.otherExc m) = false) ∧
      ∀ st d, inRetryTuple (.httpExc st d) = false) ∧
    (op 0 = .ok a → retry_yt_dlp_operation op 3 1 = some (.ok a, [])) ∧
    (op 0 = .error e → inRetryTuple e = false →
      retry_yt_dlp_operation op 3 1 = some (.error e, [])) ∧
    (op 0 = .error e0 → op 1 = .error e1 → op 2 = .error e2 →
      inRetryTuple e0 = true → inRetryTuple e1 = true → inRetryTuple e2 = true →
      retry_yt_dlp_operation op 3 1 = some (.error e2, [1, 2])) := by
  refine ⟨⟨fun m => ⟨rfl, rfl, rfl, rfl, rfl⟩, fun st d => rfl⟩, ?_, ?_, ?_⟩
  · intro h0
    simp [retry_yt_dlp_operation, retryGo, h0]
  · intro h0 hr
    simp [retry_yt_dlp_operation, retryGo, h0, hr]
  · intro h0 h1 h2 hr0 hr1 hr2
    simp [retry_yt_dlp_operation, retryGo, h0, h1, h2, hr0, hr1, hr2]

/-- Claim C3, witness: the amended behaviour at three concrete operations —
immediate success, immediate non-retried failure, and a transport-style
failure sequence retried to exhaustion with sleeps `[1, 2]` and the last
failure re-raised. -/
theorem claim_C3_witness :
    retry_yt_dlp_operation opC3succ 3 1 = some (.ok (), []) ∧
    retry_yt_dlp_operation opC3other 3 1 = some (.error (.otherExc "boom"), []) ∧
    retry_yt_dlp_operation opC3net 3 1 = some (.error (.downloadErr "dl"), [1, 2]) :=
  ⟨(claim_C3_amended Unit opC3succ () (.otherExc "x") (.otherExc "x") (.otherExc "x")
      (.otherExc "x")).2.1 rfl,
   (claim_C3_amended Unit opC3other () (.otherExc "boom") (.otherExc "x") (.otherExc "x")
      (.otherExc "x")).2.2.1 rfl rfl,
   (claim_C3_amended Unit opC3net () (.otherExc "x") (.brokenPipe "reset")
      (.connErr "pipe") (.downloadErr "dl")).2.2.2 rfl rfl rfl rfl rfl rfl⟩

/-! ### Caption download and the transcript orchestration
(src/src/main.py lines 155-219 and 405-482)

The yt-dlp side effects are abstracted into an environment: `info` is the
attempt-indexed outcome of `extract_info`, `files` the attempt-indexed
scratch-directory listing after `ydl.download`, `read` the file contents. -/

def pyEndsWith (s suf : String) : Bool := suf.data.isSuffixOf s.data

/-- One candidate position for the regex `{video_id}\.([^.]+)\.vtt`:
the identifier, a dot, a non-empty maximal dot-free run (the greedy
`[^.]+`), then `.vtt`. -/
def langAt (vid cs : List Char) : Option (List Char) :=
  if vid.isPrefixOf cs then
    match cs.drop vid.length with
    | '.' :: rest =>
      match rest.takeWhile (fun c => c ≠ '.') with
      | [] => none
      | run =>
        if ".vtt".data.isPrefixOf (rest.drop run.length) then some run
        else none
    | _ => none
  else none

/-- Model of `re.search(rf'{video_id}\.([^.]+)\.vtt', subtitle_file)`
(line 200): leftmost match wins. -/
def searchLang (vid : List Char) : List Char → Option (List Char)
  | [] => langAt vid []
  | cs@(_ :: rest) => (langAt vid cs).orElse (fun _ => searchLang vid rest)

/-- Body of `download_operation` (lines 181-207) after the `ydl.download`
call: filter the scratch listing for `<id>…​.vtt` artifacts, raise the 404
`HTTPException` when none exist, otherwise take the first, parse the
delivered language out of its name (falling back to the requested language,
then to `"unknown"`), and read it. -/
def download_operation (videoId : String) (language : Option String)
    (files : List String) (readF : String → String) :
    Except PyExc (String × String) :=
  match files.filter (fun f => pyStartsWith f videoId && pyEndsWith f ".vtt") with
  | [] => .error (.httpExc 404 "No subtitles found for this video")
  | f :: _ =>
    let actual : String :=
      match searchLang videoId.data f.data with
      | some l => ⟨l⟩
      | none =>
        match language with
        | some l => if l = "" then "unknown" else l
        | none => "unknown"
    .ok (readF f, actual)

/-- Model of `download_subtitles` (lines 155-219).  The `except` chain is
applied to whatever the retry wrapper re-raises; note that the last clause,
`except Exception`, also catches the 404 `HTTPException` raised inside the
operation for the zero-artifact case and rewraps it as a 500.  The `none`
branch is unreachable for `max_retries = 3`. -/
def download_subtitles (videoId : String) (language : Option String)
    (files : Nat → List String) (readF : String → String) :
    Except PyExc (String × String) :=
  match retry_yt_dlp_operation
      (fun i => download_operation videoId language (files i) readF) 3 1 with
  | some (.ok r, _) => .ok r
  | some (.error (.downloadErr m), _) =>
      .error (.httpExc 404 ("Failed to download subtitles: " ++ m))
  | some (.error (.brokenPipe m), _) =>
      .error (.httpExc 503 ("Network error, please try again: " ++ m))
  | some (.error (.connErr m), _) =>
      .error (.httpExc 503 ("Network error, please try again: " ++ m))
  | some (.error e, _) =>
      .error (.httpExc 500 ("Unexpected error: " ++ strOfExc e))
  | none => .error (.otherExc "retry loop returned None")

/-- Model of `get_video_info` (lines 111-153) given the attempt-indexed
outcome of `extract_info`. -/
def get_video_info (info : Nat → Except PyExc (List String × List String)) :
    Except PyExc (List String × List String) :=
  match retry_yt_dlp_operation info 3 1 with
  | some (.ok r, _) => .ok r
  | some (.error (.downloadErr m), _) =>
      .error (.httpExc 404 ("Video not accessible: " ++ m))
  | some (.error (.brokenPipe m), _) =>
      .error (.httpExc 503 ("Network error, please try again: " ++ m))
  | some (.error (.connErr m), _) =>
      .error (.httpExc 503 ("Network error, please try again: " ++ m))
  | some (.error e, _) =>
      .error (.httpExc 500 ("Unexpected error: " ++ strOfExc e))
  | none => .error (.otherExc "retry loop returned None")

/-- Offered-language list built in `get_transcript` (lines 427-440) and
identically in the download and batch endpoints: manual subtitle keys
first, then automatic-caption keys not already present. -/
def available_languages (manual auto : List String) : List String :=
  auto.foldl (fun acc c => if c ∈ acc then acc else acc ++ [c])
    (manual.foldl (fun acc c => acc ++ [c]) [])

/-- Language choice of `get_transcript` (lines 448-457); the callers only
reach it with a non-empty list, so index 0 is modelled by `headD`. -/
def select_language (requested : String) (avail : List String) : String :=
  if requested ∈ avail then requested
  else if "en" ∈ avail then "en"
  else avail.headD ""

structure Env where
  info : String → Nat → Except PyExc (List String × List String)
  files : String → Nat → List String
  readF : String → String

structure TranscriptR where
  video_id : String
  language : String
  transcript : String
  available_languages : List String
deriving DecidableEq, Repr

/-- Body of the `/transcript` handler (lines 405-474) up to its outer
`except` clauses: extract, list info (any failure, including the
`HTTPException`s of `get_video_info`, is rewrapped as a 404), build the
offered languages, pick one, then download and parse (any failure is
rewrapped as a 503). -/
def get_transcript_core (env : Env) (url requested : String) :
    Except PyExc TranscriptR :=
  match extract_video_id url with
  | .error m => .error (.valueErr m)
  | .ok vid =>
    match get_video_info (env.info vid) with
    | .error e =>
        .error (.httpExc 404 ("Video not found or unavailable: " ++ strOfExc e))
    | .ok (manual, auto) =>
      let avail := available_languages manual auto
      if avail.isEmpty then
        .error (.httpExc 404 "No subtitles available for this video")
      else
        match download_subtitles vid (some (select_language requested avail))
            (env.files vid) env.readF with
        | .error e =>
            .error (.httpExc 503 ("Unable to fetch transcript: " ++ strOfExc e))
        | .ok (content, actual) =>
            .ok ⟨vid, actual, parse_vtt_content content, avail⟩

/-- Outer handler of `get_transcript` (lines 476-482): `ValueError` maps to
400, an `HTTPException` re-raises unchanged, anything else maps to 500. -/
def get_transcript (env : Env) (url requested : String) :
    Except PyExc TranscriptR :=
  match get_transcript_core env url requested with
  | .error (.valueErr m) => .error (.httpExc 400 m)
  | .error (.httpExc s d) => .error (.httpExc s d)
  | .error e => .error (.httpExc 500 ("Error fetching transcript: " ++ strOfExc e))
  | .ok r => .ok r

/-- The HTTP status the caller observes. -/
def statusOf {α : Type} : Except PyExc α → Option Nat
  | .error (.httpExc s _) => some s
  | _ => none

/-- Environment for claim C4: the video exists and offers `en` captions,
but the caption fetch stage produces zero artifacts in the scratch
directory. -/
def envC4 : Env :=
  { info := fun _ _ => .ok (["en"], [])
  , files := fun _ _ => []
  , readF := fun _ => "" }

/-- Claim C4: the zero-artifact case is supposed to surface as 404, but the
404 `HTTPException` raised inside the download operation is caught by
`download_subtitles`' own `except Exception` (becoming a 500) and then by
`get_transcript`'s inner `except Exception` (becoming a 503), so the caller
observes 503, not 404. -/
theorem claim_C4 :
    get_transcript envC4 "https://www.youtube.com/watch?v=abc123" "en"
      = .error (.httpExc 503
          "Unable to fetch transcript: 500: Unexpected error: 404: No subtitles found for this video") ∧
    statusOf (get_transcript envC4 "https://www.youtube.com/watch?v=abc123" "en")
      = some 503 ∧
    statusOf (get_transcript envC4 "https://www.youtube.com/watch?v=abc123" "en")
      ≠ some 404 := by
  refine ⟨rfl, rfl, by decide⟩

/-! ### Claim C6: language selection -/

/-- Claim C6: language selection is a pure deterministic function of the
requested language and the ordered offered list — the requested language if
offered, else the literal `"en"` if offered, else the first offered
language; in particular the three documented examples hold. -/
theorem claim_C6 :
    select_language "es" ["en", "es"] = "es" ∧
    select_language "fr" ["en", "es"] = "en" ∧
    select_language "fr" ["es", "pt"] = "es" ∧
    (∀ requested offered, requested ∈ offered →
      select_language requested offered = requested) ∧
    (∀ requested offered, requested ∉ offered → "en" ∈ offered →
      select_language requested offered = "en") ∧
    (∀ requested x xs, requested ∉ x :: xs → "en" ∉ x :: xs →
      select_language requested (x :: xs) = x) := by
  refine ⟨by decide, by decide, by decide, ?_, ?_, ?_⟩
  · intro requested offered h
    simp [select_language, h]
  · intro requested offered h he
    simp [select_language, h, he]
  · intro requested x xs h he
    simp [select_language, h, he]

/-- Claim C6, witness: the general clauses applied at fresh concrete
inputs. -/
theorem claim_C6_witness :
    select_language "pt" ["es", "pt"] = "pt" ∧
    select_language "de" ["it", "en"] = "en" ∧
    select_language "de" ["it", "fr"] = "it" :=
  ⟨claim_C6.2.2.2.1 "pt" ["es", "pt"] (by decide),
   claim_C6.2.2.2.2.1 "de" ["it", "en"] (by decide) (by decide),
   claim_C6.2.2.2.2.2 "de" "it" ["fr"] (by decide) (by decide)⟩

/-! ### Claim C8: the offered-language invariant -/

structure LangEntry where
  code : String
  language : String
  is_generated : Bool
deriving DecidableEq, Repr

/-- Entry list built by the `/languages/{video_id}` handler
(src/src/main.py lines 489-508): one entry per manual key, then one per
automatic key whose code is not already present. -/
def get_available_languages (manual auto : List String) : List LangEntry :=
  auto.foldl
    (fun acc c =>
      if acc.any (fun l => l.code == c) then acc
      else acc ++ [⟨c, c, true⟩])
    (manual.foldl (fun acc c => acc ++ [⟨c, c, false⟩]) [])

theorem foldl_append_strings : ∀ (manual init : List String),
    manual.foldl (fun acc c => acc ++ [c]) init = init ++ manual := by
  intro manual
  induction manual with
  | nil => intro init; simp
  | cons a rest ih => intro init; simp [List.foldl_cons, ih, List.append_assoc]

theorem foldl_append_entries : ∀ (manual : List String) (init : List LangEntry),
    manual.foldl (fun acc c => acc ++ [⟨c, c, false⟩]) init
      = init ++ manual.map (fun c => (⟨c, c, false⟩ : LangEntry)) := by
  intro manual
  induction manual with
  | nil => intro init; simp
  | cons a rest ih => intro init; simp [List.foldl_cons, ih, List.append_assoc]

theorem dedup_fold_strings : ∀ (auto acc : List String), auto.Nodup →
    auto.foldl (fun acc c => if c ∈ acc then acc else acc ++ [c]) acc
      = acc ++ auto.filter (fun c => decide (c ∉ acc)) := by
  intro auto
  induction auto with
  | nil => intro acc _; simp
  | cons a auto ih =>
    intro acc hnd
    obtain ⟨ha, hnd2⟩ := List.nodup_cons.mp hnd
    rw [List.foldl_cons]
    by_cases hmem : a ∈ acc
    · rw [if_pos hmem, ih acc hnd2, List.filter_cons]
      simp [hmem]
    · rw [if_neg hmem, ih _ hnd2, List.filter_cons]
      rw [if_pos (decide_eq_true hmem)]
      rw [List.append_assoc, List.singleton_append]
      congr 2
      apply List.filter_congr
      intro c hc
      have hca : c ≠ a := fun h => ha (h ▸ hc)
      simp [List.mem_append, hca]

theorem dedup_fold_entries : ∀ (auto : List String) (acc : List LangEntry),
    auto.Nodup →
    (auto.foldl
        (fun acc c =>
          if acc.any (fun l => l.code == c) then acc
          else acc ++ [⟨c, c, true⟩]) acc).map (fun e => e.code)
      = acc.map (fun e => e.code)
          ++ auto.filter (fun c => decide (c ∉ acc.map (fun e => e.code))) := by
  intro auto
  induction auto with
  | nil => intro acc _; simp
  | cons a auto ih =>
    intro acc hnd
    obtain ⟨ha, hnd2⟩ := List.nodup_cons.mp hnd
    rw [List.foldl_cons]
    by_cases hmem : a ∈ acc.map (fun e => e.code)
    · have hany : acc.any (fun l => l.code == a) = true := by
        obtain ⟨e, he, hcode⟩ := List.mem_map.mp hmem
        exact List.any_eq_true.mpr ⟨e, he, by simp [hcode]⟩
      rw [if_pos hany, ih acc hnd2, List.filter_cons]
      simp [hmem]
    · have hany : acc.any (fun l => l.code == a) = false := by
        rw [List.any_eq_false]
        intro e he
        simp only [beq_iff_eq]
        intro hcode
        exact hmem (List.mem_map.mpr ⟨e, he, hcode⟩)
      rw [if_neg (by simp [hany]), ih _ hnd2, List.filter_cons]
      rw [if_pos (decide_eq_true hmem)]
      rw [List.map_append]
      rw [List.append_assoc]
      congr 1
      simp only [List.map_cons, List.map_nil, List.singleton_append]
      congr 1
      apply List.filter_congr
      intro c hc
      have hca : c ≠ a := fun h => ha (h ▸ hc)
      simp [List.mem_append, hca]

/-- Claim C8: the offered-language list equals the manual-track codes in
discovery order followed by the auto-generated codes not already present,
in discovery order — both in the transcript/download/batch handlers'
construction and in the `/languages` endpoint's entry list.  The automatic
keys come from a Python dict, hence the no-duplicates hypothesis. -/
theorem claim_C8 (manual auto : List String) (hauto : auto.Nodup) :
    available_languages manual auto
      = manual ++ auto.filter (fun c => decide (c ∉ manual)) ∧
    (get_available_languages manual auto).map (fun e => e.code)
      = manual ++ auto.filter (fun c => decide (c ∉ manual)) := by
  constructor
  · unfold available_languages
    rw [foldl_append_strings, List.nil_append, dedup_fold_strings auto manual hauto]
  · unfold get_available_languages
    rw [foldl_append_entries, List.nil_append, dedup_fold_entries auto _ hauto]
    have hmm2 : (manual.map (fun c => (⟨c, c, false⟩ : LangEntry))).map
        (fun e => e.code) = manual := by
      rw [List.map_map]
      rw [show ((fun e : LangEntry => e.code) ∘ fun c => (⟨c, c, false⟩ : LangEntry))
          = (id : String → String) from rfl]
      exact List.map_id manual
    rw [hmm2]

/-- Claim C8, witness at a concrete track listing: manual `en, es`,
automatic `es, pt` flatten to `en, es, pt`. -/
theorem claim_C8_witness :
    available_languages ["en", "es"] ["es", "pt"]
      = ["en", "es"] ++ ["es", "pt"].filter (fun c => decide (c ∉ ["en", "es"])) ∧
    (get_available_languages ["en", "es"] ["es", "pt"]).map (fun e => e.code)
      = ["en", "es"] ++ ["es", "pt"].filter (fun c => decide (c ∉ ["en", "es"])) :=
  claim_C8 ["en", "es"] ["es", "pt"] (by decide)

/-! ### Claim C9: the batch endpoint (src/src/main.py lines 516-605) -/

structure BatchVideoResult where
  url : String
  video_id : Option String
  success : Bool
  transcript : Option String
  language : Option String
  available_languages : Option (List String)
  error : Option String
deriving DecidableEq, Repr

structure BatchResponse where
  total_requested : Nat
  successful : Nat
  failed : Nat
  results : List BatchVideoResult
deriving DecidableEq, Repr

/-- One iteration of the batch loop (lines 526-596): every stage's
exception is caught, stringified into the item's `error` field, and the
item is appended with `success = False`; only a complete
download-and-parse sets `success = True`. -/
def processItem (env : Env) (language url : String) : BatchVideoResult :=
  match extract_video_id url with
  | .error m =>
      { url := url, video_id := none, success := false, transcript := none,
        language := none, available_languages := none,
        error := some ("Invalid YouTube URL: " ++ m) }
  | .ok vid =>
    match get_video_info (env.info vid) with
    | .error e =>
        { url := url, video_id := some vid, success := false, transcript := none,
          language := none, available_languages := none,
          error := some ("Video not found or unavailable: " ++ strOfExc e) }
    | .ok (manual, auto) =>
      let avail := available_languages manual auto
      if avail.isEmpty then
        { url := url, video_id := some vid, success := false, transcript := none,
          language := none, available_languages := some avail,
          error := some "No subtitles available for this video" }
      else
        match download_subtitles vid (some (select_language language avail))
            (env.files vid) env.readF with
        | .error e =>
            { url := url, video_id := some vid, success := false, transcript := none,
              language := none, available_languages := some avail,
              error := some ("Failed to download transcript: " ++ strOfExc e) }
        | .ok (content, actual) =>
            { url := url, video_id := some vid, success := true,
              transcript := some (parse_vtt_content content),
              language := some actual, available_languages := some avail,
              error := none }

/-- The sequential batch loop with its two counters and accumulated result
list (successful is incremented exactly in the branch that sets
`success = True`, failed in every other branch). -/
def batchLoop (env : Env) (language : String) :
    List String → Nat → Nat → List BatchVideoResult →
      Nat × Nat × List BatchVideoResult
  | [], s, f, acc => (s, f, acc.reverse)
  | url :: rest, s, f, acc =>
    if (processItem env language url).success then
      batchLoop env language rest (s+1) f (processItem env language url :: acc)
    else
      batchLoop env language rest s (f+1) (processItem env language url :: acc)

/-- Model of the `/transcripts/batch` handler (lines 516-605). -/
def batch_transcripts (env : Env) (urls : List String) (language : String) :
    BatchResponse :=
  { total_requested := urls.length
  , successful := (batchLoop env language urls 0 0 []).1
  , failed := (batchLoop env language urls 0 0 []).2.1
  , results := (batchLoop env language urls 0 0 []).2.2 }

theorem processItem_url (env : Env) (language url : String) :
    (processItem env language url).url = url := by
  unfold processItem
  repeat first | rfl | split | dsimp only

theorem processItem_err (env : Env) (language url : String) :
    (processItem env language url).error.isSome
      = !(processItem env language url).success := by
  unfold processItem
  repeat first | rfl | split | dsimp only

theorem processItem_flag (env : Env) (language url : String) :
    (if (processItem env language url).success
     then (processItem env language url).error.isNone
     else (processItem env language url).error.isSome) = true := by
  have herr := processItem_err env language url
  cases hs : (processItem env language url).success with
  | false =>
    rw [hs] at herr
    simp [hs, herr]
  | true =>
    rw [hs] at herr
    cases ho : (processItem env language url).error with
    | some v => rw [ho] at herr; simp at herr
    | none => simp [hs, ho]

theorem batchLoop_spec (env : Env) (language : String) :
    ∀ (urls : List String) (s f : Nat) (acc : List BatchVideoResult),
      (batchLoop env language urls s f acc).1
          + (batchLoop env language urls s f acc).2.1 = s + f + urls.length ∧
      (batchLoop env language urls s f acc).2.2
          = acc.reverse ++ urls.map (processItem env language) := by
  intro urls
  induction urls with
  | nil => intro s f acc; simp [batchLoop]
  | cons url rest ih =>
    intro s f acc
    have step0 : batchLoop env language (url :: rest) s f acc
        = if (processItem env language url).success then
            batchLoop env language rest (s+1) f (processItem env language url :: acc)
          else
            batchLoop env language rest s (f+1) (processItem env language url :: acc) :=
      rfl
    by_cases h : (processItem env language url).success = true
    · rw [step0, if_pos h]
      obtain ⟨ih1, ih2⟩ := ih (s+1) f (processItem env language url :: acc)
      constructor
      · rw [ih1]; simp only [List.length_cons]; omega
      · rw [ih2]; simp
    · rw [step0, if_neg h]
      obtain ⟨ih1, ih2⟩ := ih s (f+1) (processItem env language url :: acc)
      constructor
      · rw [ih1]; simp only [List.length_cons]; omega
      · rw [ih2]; simp

/-- Claim C9: the batch endpoint returns normally with exactly one result
per input URL in input order, `total_requested` equal to the URL count,
`successful + failed = total_requested`, every non-successful item carrying
an error text (and successful items carrying none); the empty batch returns
all-zero counters and an empty result list. -/
theorem claim_C9 (env : Env) (urls : List String) (language : String) :
    (batch_transcripts env urls language).total_requested = urls.length ∧
    (batch_transcripts env urls language).results.map (fun r => r.url) = urls ∧
    (batch_transcripts env urls language).successful
        + (batch_transcripts env urls language).failed = urls.length ∧
    ((batch_transcripts env urls language).results.all
        (fun r => if r.success then r.error.isNone else r.error.isSome)) = true ∧
    batch_transcripts env [] language
      = { total_requested := 0, successful := 0, failed := 0, results := [] } := by
  obtain ⟨h1, h2⟩ := batchLoop_spec env language urls 0 0 []
  refine ⟨rfl, ?_, ?_, ?_, rfl⟩
  · show (batchLoop env language urls 0 0 []).2.2.map (fun r => r.url) = urls
    rw [h2]
    simp only [List.reverse_nil, List.nil_append, List.map_map]
    rw [show ((fun r : BatchVideoResult => r.url) ∘ processItem env language)
        = fun url => (processItem env language url).url from rfl]
    calc List.map (fun url => (processItem env language url).url) urls
        = List.map (fun url => url) urls :=
          List.map_congr_left (fun url _ => processItem_url env language url)
      _ = urls := List.map_id' urls
  · show (batchLoop env language urls 0 0 []).1
        + (batchLoop env language urls 0 0 []).2.1 = urls.length
    omega
  · show ((batchLoop env language urls 0 0 []).2.2.all
        (fun r => if r.success then r.error.isNone else r.error.isSome)) = true
    rw [h2]
    simp only [List.reverse_nil, List.nil_append, List.all_eq_true]
    intro r hr
    obtain ⟨url, _, he⟩ := List.mem_map.mp hr
    rw [← he]
    exact processItem_flag env language url

end YtCap
